import Mathlib

/-!
# Webcam control value model and preset application

A shallow embedding of `webcam.go` (the control value model), of the digit-key
handler of `tui.go` and of `applyPreset` from `configfile.go`.

* `int32` values are integers in `[-2^31, 2^31)`; every `int32` addition,
  subtraction and multiplication of the source is followed by `wrap32`.
* `float64` results are not computed: the `int32` that
  `int32(math.Round(..))` yields in `GetPercentChange` is an argument, and the
  rounding of each `float64` operation in `controlValue` is an argument `fl`.
* The device is a state type `σ` with a write function
  `σ → ControlID → Int → Bool × σ`; `true` is a write without error.
-/

namespace Webcam

/-! ## Machine integers -/

/-- Reduction of an integer to the `int32` range, two's complement. -/
def wrap32 (x : Int) : Int := (x + 2147483648) % 4294967296 - 2147483648

/-- The integer is representable as an `int32`. -/
def isInt32 (x : Int) : Prop := -2147483648 ≤ x ∧ x ≤ 2147483647

instance (x : Int) : Decidable (isInt32 x) := by
  unfold isInt32; infer_instance

/-! ## `webcam.go`: the control and its value model -/

/-- The identifier of a control, `webcam.ControlID` (an unsigned 32 bit number). -/
abbrev ControlID := Nat

/-- The Go type `controlType`, an `int`. -/
abbrev controlType := Int

def c_int : controlType := 0
def c_bool : controlType := 1
def c_menu : controlType := 2

/-- The struct `Control`; the field `Type` of the source is `Typ` here. -/
structure Control where
  ID : ControlID
  Name : String
  Min : Int
  Max : Int
  Value : Int
  Step : Int
  Typ : controlType
  Flags : Nat
  deriving DecidableEq

/-- All four `int32` fields of a control are in the `int32` range. -/
def Control.wellTyped (c : Control) : Prop :=
  isInt32 c.Min ∧ isInt32 c.Max ∧ isInt32 c.Value ∧ isInt32 c.Step

instance (c : Control) : Decidable c.wellTyped := by
  unfold Control.wellTyped; infer_instance

/-- Source: `func (c Control) IsBoolean() bool` -/
def IsBoolean (c : Control) : Bool :=
  c.Typ == c_bool || (c.Min == 0 && c.Max == 1)

/-- Source: `func (c Control) IsMenu() bool` -/
def IsMenu (c : Control) : Bool :=
  c.Typ == c_menu

/-- Source: `func (c Control) ToggleBoolean() int32` -/
def ToggleBoolean (c : Control) : Int :=
  if c.Value = c.Min then c.Max else c.Min

/-- Source: `func (c Control) GetStepsChange(steps int32) int32` -/
def GetStepsChange (c : Control) (steps : Int) : Int :=
  let stepSize := max 1 c.Step
  let nextValue := wrap32 (c.Value + wrap32 (steps * stepSize))
  if steps < 0 then max nextValue c.Min
  else if steps > 0 then min nextValue c.Max
  else nextValue

/-- Source: `func (c Control) GetValueIncreaseStep() int32` -/
def GetValueIncreaseStep (c : Control) : Int :=
  if IsBoolean c then ToggleBoolean c
  else if IsMenu c then min c.Max (wrap32 (c.Value + 1))
  else GetStepsChange c 1

/-- Source: `func (c Control) GetValueDecreseStep() int32` -/
def GetValueDecreseStep (c : Control) : Int :=
  if IsBoolean c then ToggleBoolean c
  else if IsMenu c then max c.Min (wrap32 (c.Value - 1))
  else GetStepsChange c (-1)

/-- Source: `func (c Control) GetPercentChange(add float64) int32`.  The argument
`rounded` is the `int32` that `int32(math.Round(span*nextPercent + float64(c.Min)))`
yields; `add` is only compared with zero. -/
def GetPercentChange (c : Control) (add : Rat) (rounded : Int) : Int :=
  let stepSize := max 1 c.Step
  let nextValue := rounded
  if add < 0 then
    let nextValue := min nextValue (wrap32 (c.Value - stepSize))
    max nextValue c.Min
  else if add > 0 then
    let nextValue := max nextValue (wrap32 (c.Value + stepSize))
    min nextValue c.Max
  else nextValue

/-- Source: `func (c Control) GetValueIncreasePercent() int32` -/
def GetValueIncreasePercent (c : Control) (rounded : Int) : Int :=
  if IsBoolean c then ToggleBoolean c
  else if IsMenu c then min c.Max (wrap32 (c.Value + 1))
  else GetPercentChange c (2 / 100) rounded

/-- Source: `func (c Control) GetValueDecreasePercent() int32` -/
def GetValueDecreasePercent (c : Control) (rounded : Int) : Int :=
  if IsBoolean c then ToggleBoolean c
  else if IsMenu c then max c.Min (wrap32 (c.Value - 1))
  else GetPercentChange c (-(2 / 100)) rounded

/-- Conversion of a finite `float64` inside the `int32` range to `int32`:
the fraction is discarded (truncation toward zero). -/
def truncToInt32 (x : Rat) : Int :=
  if 0 ≤ x then ⌊x⌋ else ⌈x⌉

/-- Source: `func controlValue(control Control, percent float64) int32`.  `fl` is the
rounding applied to the result of each `float64` operation; the conversions
`float64(control.Max)` and `float64(control.Min)` and the built-in `min` and
`max` are exact. -/
def controlValue (fl : Rat → Rat) (control : Control) (percent : Rat) : Int :=
  truncToInt32
    (min (control.Max : Rat)
      (max (control.Min : Rat)
        (fl (fl (fl ((control.Max : Rat) - (control.Min : Rat)) * percent)
          + (control.Min : Rat)))))

/-! ## `tui.go`: the digit keys of `MainView.Update` -/

/-- The eleven keys of the case "backtick, 0, 1, .., 9". -/
inductive DigitKey where
  | backtick : DigitKey
  | digit : Fin 10 → DigitKey
  deriving DecidableEq

/-- The `int64` called `v` in the handler: 0 for the backtick, 10 for the key
"0", and `strconv.ParseInt(key, 10, 32)` for the keys "1" to "9". -/
def keyNumber : DigitKey → Int
  | .backtick => 0
  | .digit d => if d.val = 0 then 10 else (d.val : Int)

/-- The value the handler passes to `SetControl` for the current control:
`int32(v)` for a menu or boolean control, and
`controlValue(m.current, float64(v) / 10)` otherwise. -/
def digitWrite (fl : Rat → Rat) (current : Control) (key : DigitKey) : Int :=
  let v := keyNumber key
  if IsMenu current || IsBoolean current then wrap32 v
  else
    let percent := fl ((v : Rat) / 10)
    controlValue fl current percent

/-! ## `configfile.go`: presets and `applyPreset` -/

/-- The struct `ConfigPresetValue`. -/
structure ConfigPresetValue where
  ID : ControlID
  Value : Int
  deriving DecidableEq

/-- The struct `ConfigPreset`. -/
structure ConfigPreset where
  Values : List ConfigPresetValue
  deriving DecidableEq

/-- A Go `map[ControlID]ConfigPresetValue`: the bindings, the latest first. -/
abbrev PresetMap := List (ControlID × ConfigPresetValue)

/-- The assignment `m[k] = v`. -/
def PresetMap.set (m : PresetMap) (k : ControlID) (v : ConfigPresetValue) : PresetMap :=
  (k, v) :: m

/-- The expression `m[k]`: the value bound to `k`, or the zero value of
`ConfigPresetValue` when `k` has no binding. -/
def PresetMap.get (m : PresetMap) (k : ControlID) : ConfigPresetValue :=
  match m.lookup k with
  | some v => v
  | none => { ID := 0, Value := 0 }

/-- The first loop of `applyPreset`: `presetValuesMap[v.ID] = v` for each value
of the preset in turn. -/
def presetValuesMap (preset : ConfigPreset) : PresetMap :=
  preset.Values.foldl (fun m v => m.set v.ID v) []

/-- The identifier has an entry in the preset. -/
def inPreset (preset : ConfigPreset) (id : ControlID) : Prop :=
  ∃ v ∈ preset.Values, v.ID = id

/-- One call of `SetControl`: the control `v` of the range loop, the value
passed, and whether the call returned no error. -/
structure Write where
  control : Control
  value : Int
  ok : Bool
  deriving DecidableEq

/-- The variables of the inner `for _, v := range controls` loop: the device,
the map `todo` (its keys, without repetition), the counter `retries`, and the
calls of `SetControl` made in this pass so far. -/
structure PassState (σ : Type) where
  dev : σ
  todo : List ControlID
  retries : Nat
  writes : List Write

/-- The body of `for _, v := range controls`. -/
def passStep {σ : Type} (setControl : σ → ControlID → Int → Bool × σ) (pm : PresetMap)
    (st : PassState σ) (v : Control) : PassState σ :=
  if v.ID ∈ st.todo then
    let value := (pm.get v.ID).Value
    let r := setControl st.dev v.ID value
    if r.1 then
      { dev := r.2, todo := st.todo.erase v.ID, retries := st.retries,
        writes := st.writes ++ [{ control := v, value := value, ok := true }] }
    else
      { dev := r.2, todo := st.todo, retries := st.retries + 1,
        writes := st.writes ++ [{ control := v, value := value, ok := false }] }
  else st

/-- One run of `for _, v := range controls`. -/
def runPass {σ : Type} (setControl : σ → ControlID → Int → Bool × σ) (pm : PresetMap)
    (controls : List Control) (st : PassState σ) : PassState σ :=
  controls.foldl (passStep setControl pm) st

/-- The variables of the retry loop of one group, with the passes made so far
(each the list of its calls of `SetControl`). -/
structure GroupState (σ : Type) where
  dev : σ
  todo : List ControlID
  retries : Nat
  passes : List (List Write)

/-- The loop condition `len(todo) > 0 && (retries < len(todo)*10)`. -/
def loopCond {σ : Type} (st : GroupState σ) : Bool :=
  decide (st.todo.length > 0) && decide (st.retries < st.todo.length * 10)

/-- One iteration of the retry loop: a full pass over the group. -/
def onePass {σ : Type} (setControl : σ → ControlID → Int → Bool × σ) (pm : PresetMap)
    (controls : List Control) (st : GroupState σ) : GroupState σ :=
  let p := runPass setControl pm controls
    { dev := st.dev, todo := st.todo, retries := st.retries, writes := [] }
  { dev := p.dev, todo := p.todo, retries := p.retries, passes := st.passes ++ [p.writes] }

/-- The loop `for len(todo) > 0 && (retries < len(todo)*10) { .. }`, with a
bound `fuel` on the number of evaluations of its condition; `none` when the
bound is reached. -/
def retryLoop {σ : Type} (setControl : σ → ControlID → Int → Bool × σ) (pm : PresetMap)
    (controls : List Control) : Nat → GroupState σ → Option (GroupState σ)
  | 0, _ => none
  | fuel + 1, st =>
    if loopCond st then retryLoop setControl pm controls fuel (onePass setControl pm controls st)
    else some st

/-- The map `todo` after `for _, c := range controls { todo[c.ID] = struct{}{} }`. -/
def initTodo (controls : List Control) : List ControlID :=
  controls.foldl (fun todo c => todo.insert c.ID) []

/-- The state in which the retry loop of a group starts. -/
def groupStart {σ : Type} (dev : σ) (controls : List Control) : GroupState σ :=
  { dev := dev, todo := initTodo controls, retries := 0, passes := [] }

/-- The body of `for _, controls := range [][]Control{..}` for one group. -/
def processGroup {σ : Type} (setControl : σ → ControlID → Int → Bool × σ) (pm : PresetMap)
    (fuel : Nat) (dev : σ) (controls : List Control) : Option (GroupState σ) :=
  retryLoop setControl pm controls fuel (groupStart dev controls)

/-- The test `c.Type == c_menu || c.Type == c_bool` of the partition. -/
def isBoolOrMenu (c : Control) : Bool :=
  c.Typ == c_menu || c.Typ == c_bool

/-- The slice `boolAndMenuControls`. -/
def boolAndMenuControls (allControls : List Control) : List Control :=
  allControls.filter isBoolOrMenu

/-- The slice `integerControls`. -/
def integerControls (allControls : List Control) : List Control :=
  allControls.filter (fun c => !isBoolOrMenu c)

/-- What a call of `applyPreset` leaves behind: the device, and the final
state of the retry loop of each of the two groups. -/
structure ApplyResult (σ : Type) where
  dev : σ
  groupA : GroupState σ
  groupB : GroupState σ

/-- Source: `func applyPreset(wc *Webcam, preset ConfigPreset) error`, on the list
`allControls` that `wc.getControls()` returned.  The calls of `time.Sleep` are
left out. -/
def applyPreset {σ : Type} (setControl : σ → ControlID → Int → Bool × σ) (fuel : Nat)
    (dev : σ) (allControls : List Control) (preset : ConfigPreset) : Option (ApplyResult σ) :=
  let pm := presetValuesMap preset
  match processGroup setControl pm fuel dev (boolAndMenuControls allControls) with
  | none => none
  | some a =>
    match processGroup setControl pm fuel a.dev (integerControls allControls) with
    | none => none
    | some b => some { dev := b.dev, groupA := a, groupB := b }

/-- All calls of `SetControl` of a group, in the order they were made. -/
def GroupState.trace {σ : Type} (g : GroupState σ) : List Write :=
  g.passes.flatten

/-- All calls of `SetControl` of a call of `applyPreset`, in the order they
were made. -/
def ApplyResult.trace {σ : Type} (r : ApplyResult σ) : List Write :=
  r.groupA.trace ++ r.groupB.trace

/-! ## Devices used in the examples -/

/-- A device on which every write fails. -/
def failingDevice : Unit → ControlID → Int → Bool × Unit :=
  fun _ _ _ => (false, ())

/-- A device that is a map from identifier to value: every write succeeds and
stores the value. -/
def mapDevice : (ControlID → Int) → ControlID → Int → Bool × (ControlID → Int) :=
  fun values id v => (true, fun i => if i = id then v else values i)

/-- A device on which the writes to the identifiers in `locked` fail and all
others succeed. -/
def lockedDevice (locked : List ControlID) : Unit → ControlID → Int → Bool × Unit :=
  fun _ id _ => (!(locked.contains id), ())

/-- An integer control with the given identifier, range, value and step. -/
def intControl (id : ControlID) (lo hi value step : Int) : Control :=
  { ID := id, Name := "", Min := lo, Max := hi, Value := value, Step := step,
    Typ := c_int, Flags := 0 }

/-- The control of the worked example: range 0 to 100, step 5, value 50. -/
def sampleControl : Control := intControl 1 0 100 50 5

/-- An integer control that stands at the largest `int32`. -/
def topControl : Control := intControl 1 0 2147483647 2147483647 1

/-- An integer control of a small range with the largest `int32` as its step. -/
def hugeStepControl : Control := intControl 1 0 100 100 2147483647

/-- A control of declared kind boolean with the range 0 to 1. -/
def switchControl : Control :=
  { ID := 3, Name := "", Min := 0, Max := 1, Value := 1, Step := 1, Typ := c_bool, Flags := 0 }

/-- A control of declared kind boolean whose range has three points, at the
middle one. -/
def wideBoolControl : Control :=
  { ID := 4, Name := "", Min := 0, Max := 2, Value := 1, Step := 1, Typ := c_bool, Flags := 0 }

/-- The state of the retry loop after `k` further passes. -/
def afterPasses {σ : Type} (setControl : σ → ControlID → Int → Bool × σ) (pm : PresetMap)
    (controls : List Control) : Nat → GroupState σ → GroupState σ
  | 0, st => st
  | k + 1, st => afterPasses setControl pm controls k (onePass setControl pm controls st)

/-- The condition for a further pass as the specification words it: the pending
set is not empty and the failed writes counted so far are fewer than ten times
`initial`, the size the pending set had when the group was started. -/
def initialBudgetCond {σ : Type} (initial : Nat) (st : GroupState σ) : Bool :=
  decide (st.todo.length > 0) && decide (st.retries < initial * 10)

instance (preset : ConfigPreset) (id : ControlID) : Decidable (inPreset preset id) := by
  unfold inPreset; infer_instance

/-- Two integer controls, with the identifiers 1 and 2. -/
def twoControls : List Control := [intControl 1 0 100 50 1, intControl 2 0 100 70 1]

/-- A preset with an entry for the identifier 2 only. -/
def partialPreset : ConfigPreset := { Values := [{ ID := 2, Value := 80 }] }

/-- The values of a device on which control 1 stands at 50 and control 2 at 70. -/
def twoValues : ControlID → Int := fun i => if i = 1 then 50 else if i = 2 then 70 else 0

/-- A preset with an entry for each of the identifiers 1 and 2. -/
def fullPreset : ConfigPreset := { Values := [{ ID := 1, Value := 60 }, { ID := 2, Value := 80 }] }

/-- The write of a pass in which the write to `v` fails. -/
def failedWrite (pm : PresetMap) (v : Control) : Write :=
  { control := v, value := (pm.get v.ID).Value, ok := false }

/-- What the device sees of one call of `SetControl`: the identifier, the
value, and whether the call returned no error. -/
abbrev LogEntry := ControlID × Int × Bool

/-- The call of `SetControl` as the device sees it. -/
def Write.entry (w : Write) : LogEntry := (w.control.ID, w.value, w.ok)

/-- The device `setControl` with a log: each call of `SetControl` that reaches
the device is appended to the log, so that the log is the sequence of the
calls in the order they are made. -/
def loggingDevice {σ : Type} (setControl : σ → ControlID → Int → Bool × σ) :
    (σ × List LogEntry) → ControlID → Int → Bool × (σ × List LogEntry) :=
  fun s id v =>
    ((setControl s.1 id v).1, ((setControl s.1 id v).2, s.2 ++ [(id, v, (setControl s.1 id v).1)]))

/-- A live list in which a boolean control stands between two integer
controls. -/
def mixedControls : List Control :=
  [intControl 1 0 100 50 1, switchControl, intControl 2 0 100 70 1]

/-- A preset with an entry for each control of `mixedControls`. -/
def mixedPreset : ConfigPreset :=
  { Values := [{ ID := 1, Value := 60 }, { ID := 2, Value := 80 }, { ID := 3, Value := 0 }] }

/-- The invariant of the retry loop at its head, after `k` passes: the keys of
`todo` are pairwise different identifiers of the group, every key has failed
in each of the `k` passes, and each pass wrote to controls of the group in the
order of the group. -/
def LoopInv {σ : Type} (controls : List Control) (k : Nat) (st : GroupState σ) : Prop :=
  st.todo.Nodup ∧ (∀ i ∈ st.todo, i ∈ controls.map Control.ID) ∧
    k * st.todo.length ≤ st.retries ∧ st.passes.length = k ∧
    ∀ p ∈ st.passes, (p.map Write.control).Sublist controls

/-! ## Lemmas on the machine integers -/

lemma wrap32_of_isInt32 {x : Int} (h : isInt32 x) : wrap32 x = x := by
  unfold isInt32 at h
  unfold wrap32
  omega

lemma isInt32_wrap32 (x : Int) : isInt32 (wrap32 x) := by
  unfold isInt32 wrap32
  omega

lemma truncToInt32_mem (lo hi : Int) (x : Rat) (h1 : (lo : Rat) ≤ x) (h2 : x ≤ (hi : Rat)) :
    lo ≤ truncToInt32 x ∧ truncToInt32 x ≤ hi := by
  unfold truncToInt32
  split
  · refine ⟨Int.le_floor.mpr h1, ?_⟩
    have h3 : ((⌊x⌋ : Int) : Rat) ≤ (hi : Rat) := le_trans (Int.floor_le x) h2
    exact_mod_cast h3
  · refine ⟨?_, Int.ceil_le.mpr h2⟩
    have h3 : (lo : Rat) ≤ ((⌈x⌉ : Int) : Rat) := le_trans h1 (Int.le_ceil x)
    exact_mod_cast h3

lemma keyNumber_range (key : DigitKey) : 0 ≤ keyNumber key ∧ keyNumber key ≤ 10 := by
  cases key with
  | backtick => simp [keyNumber]
  | digit d =>
    unfold keyNumber
    have := d.isLt
    split <;> omega

/-! ## The control value model -/

/-- C1 (evaluation of the code at the failing input): the integer control with
range 0 to 2147483647, step 1 and value 2147483647 is well typed, has a step of
at least zero and a value inside its range; `GetValueIncreaseStep` adds the
step in `int32`, the sum wraps to -2147483648, the clamp `min(nextValue, c.Max)`
keeps it, and the result is below the minimum 0. -/
theorem C1_increase_step_leaves_range :
    topControl.wellTyped ∧ 0 ≤ topControl.Step ∧ topControl.Min ≤ topControl.Value ∧
      topControl.Value ≤ topControl.Max ∧
      GetValueIncreaseStep topControl = -2147483648 ∧
      ¬ (topControl.Min ≤ GetValueIncreaseStep topControl) := by
  decide

lemma toggle_in_range (c : Control) (hlo : c.Min ≤ c.Value) (hhi : c.Value ≤ c.Max) :
    c.Min ≤ ToggleBoolean c ∧ ToggleBoolean c ≤ c.Max := by
  unfold ToggleBoolean
  split <;> constructor <;> omega

/-- Where `Value + max(1, Step)` stays in the `int32` range, both increase
operations return a value in `[Min, Max]`. -/
lemma increase_in_range (c : Control) (rounded : Int) (hwt : c.wellTyped)
    (hlo : c.Min ≤ c.Value) (hhi : c.Value ≤ c.Max)
    (hup : c.Value + max 1 c.Step ≤ 2147483647) :
    (c.Min ≤ GetValueIncreaseStep c ∧ GetValueIncreaseStep c ≤ c.Max) ∧
    (c.Min ≤ GetValueIncreasePercent c rounded ∧ GetValueIncreasePercent c rounded ≤ c.Max) := by
  obtain ⟨_, _, hv, hs⟩ := hwt
  unfold isInt32 at hv hs
  have h1 : (1 : Int) ≤ max 1 c.Step := le_max_left _ _
  have hs' : max 1 c.Step ≤ 2147483647 := max_le (by norm_num) hs.2
  have e1 : wrap32 (c.Value + 1) = c.Value + 1 := wrap32_of_isInt32 (by unfold isInt32; omega)
  have e3 : wrap32 (1 * max 1 c.Step) = max 1 c.Step := by
    rw [one_mul]; exact wrap32_of_isInt32 (by unfold isInt32; omega)
  have e5 : wrap32 (c.Value + max 1 c.Step) = c.Value + max 1 c.Step :=
    wrap32_of_isInt32 (by unfold isInt32; omega)
  have hmm : c.Min ≤ c.Max := le_trans hlo hhi
  have htog := toggle_in_range c hlo hhi
  refine ⟨?_, ?_⟩
  · unfold GetValueIncreaseStep
    split
    · exact htog
    · split
      · rw [e1]; exact ⟨le_min hmm (by omega), min_le_left _ _⟩
      · simp only [GetStepsChange, e3, e5]
        norm_num
        omega
  · unfold GetValueIncreasePercent
    split
    · exact htog
    · split
      · rw [e1]; exact ⟨le_min hmm (by omega), min_le_left _ _⟩
      · simp only [GetPercentChange, e5]
        norm_num
        omega

/-- Where `Value - max(1, Step)` stays in the `int32` range, both decrease
operations return a value in `[Min, Max]`. -/
lemma decrease_in_range (c : Control) (rounded : Int) (hwt : c.wellTyped)
    (hlo : c.Min ≤ c.Value) (hhi : c.Value ≤ c.Max)
    (hdown : -2147483648 ≤ c.Value - max 1 c.Step) :
    (c.Min ≤ GetValueDecreseStep c ∧ GetValueDecreseStep c ≤ c.Max) ∧
    (c.Min ≤ GetValueDecreasePercent c rounded ∧ GetValueDecreasePercent c rounded ≤ c.Max) := by
  obtain ⟨_, _, hv, hs⟩ := hwt
  unfold isInt32 at hv hs
  have h1 : (1 : Int) ≤ max 1 c.Step := le_max_left _ _
  have hs' : max 1 c.Step ≤ 2147483647 := max_le (by norm_num) hs.2
  have e2 : wrap32 (c.Value - 1) = c.Value - 1 := wrap32_of_isInt32 (by unfold isInt32; omega)
  have e4 : wrap32 (-1 * max 1 c.Step) = -max 1 c.Step := by
    rw [neg_one_mul]; exact wrap32_of_isInt32 (by unfold isInt32; omega)
  have e6 : wrap32 (c.Value - max 1 c.Step) = c.Value - max 1 c.Step :=
    wrap32_of_isInt32 (by unfold isInt32; omega)
  have e7 : wrap32 (c.Value + -max 1 c.Step) = c.Value - max 1 c.Step := by
    rw [← sub_eq_add_neg]; exact e6
  have hmm : c.Min ≤ c.Max := le_trans hlo hhi
  have htog := toggle_in_range c hlo hhi
  refine ⟨?_, ?_⟩
  · unfold GetValueDecreseStep
    split
    · exact htog
    · split
      · rw [e2]; exact ⟨le_max_left _ _, max_le hmm (by omega)⟩
      · simp only [GetStepsChange, e4, e7]
        norm_num
        omega
  · unfold GetValueDecreasePercent
    split
    · exact htog
    · split
      · rw [e2]; exact ⟨le_max_left _ _, max_le hmm (by omega)⟩
      · simp only [GetPercentChange, e6]
        norm_num
        omega

/-- C5 (the claim as stated fails): the control of declared kind boolean with
range 0 to 2 and value 1 is treated as boolean and its value is inside its
range, and toggling twice gives 2, not 1. -/
theorem C5_counterexample :
    IsBoolean wideBoolControl = true ∧ wideBoolControl.Min ≤ wideBoolControl.Value ∧
      wideBoolControl.Value ≤ wideBoolControl.Max ∧
      ToggleBoolean { wideBoolControl with Value := ToggleBoolean wideBoolControl } = 2 ∧
      ToggleBoolean { wideBoolControl with Value := ToggleBoolean wideBoolControl }
        ≠ wideBoolControl.Value := by
  decide

/-- C5 (amended): for every control treated as boolean with `Min ≤ Value ≤ Max`,
toggling twice returns the original value exactly when the value is `Min` or
`Max`; in particular it does so whenever the range has at most two points,
as the range 0 to 1 has. -/
theorem C5_toggle_twice (c : Control) (_hb : IsBoolean c = true)
    (hlo : c.Min ≤ c.Value) (hhi : c.Value ≤ c.Max) :
    (ToggleBoolean { c with Value := ToggleBoolean c } = c.Value ↔
        (c.Value = c.Min ∨ c.Value = c.Max)) ∧
      (c.Max ≤ c.Min + 1 → ToggleBoolean { c with Value := ToggleBoolean c } = c.Value) := by
  have key : ToggleBoolean { c with Value := ToggleBoolean c } = c.Value ↔
      (c.Value = c.Min ∨ c.Value = c.Max) := by
    unfold ToggleBoolean
    by_cases h1 : c.Value = c.Min
    · by_cases h2 : c.Max = c.Min
      · simp [h1, h2]
      · simp [h1, h2]
    · by_cases h2 : c.Value = c.Max
      · simp [h1, h2]
      · simp only [h1, if_false, if_true, h2, or_self, iff_false]
        exact fun h => h2 h.symm
  refine ⟨key, fun h => key.mpr ?_⟩
  omega

/-- Witness of C5 (amended): the boolean control with range 0 to 1 and value 1. -/
theorem C5_toggle_twice_witness :
    (ToggleBoolean { switchControl with Value := ToggleBoolean switchControl }
        = switchControl.Value ↔
        (switchControl.Value = switchControl.Min ∨ switchControl.Value = switchControl.Max)) ∧
      (switchControl.Max ≤ switchControl.Min + 1 →
        ToggleBoolean { switchControl with Value := ToggleBoolean switchControl }
          = switchControl.Value) :=
  C5_toggle_twice switchControl (by decide) (by decide) (by decide)

/-- C6: for every well-typed integer control (neither boolean nor menu) with
`Step ≥ 0`, `Min ≤ Value ≤ Max` and no `int32` overflow in
`Value ± max(1, Step)`, and whatever the rounding step yields, the percent
increase is at least `min(Max, Value + max(1, Step))` and at most `Max`, and
the percent decrease is at most `max(Min, Value - max(1, Step))` and at least
`Min`; for the range 0 to 100, step 5 and value 50 the increase lies between
55 and 100. -/
theorem C6_percent_moves_a_step (c : Control) (rounded : Int) (hwt : c.wellTyped)
    (hnb : IsBoolean c = false) (hnm : IsMenu c = false) (_hstep : 0 ≤ c.Step)
    (_hlo : c.Min ≤ c.Value) (_hhi : c.Value ≤ c.Max)
    (hup : c.Value + max 1 c.Step ≤ 2147483647)
    (hdown : -2147483648 ≤ c.Value - max 1 c.Step) :
    (min c.Max (c.Value + max 1 c.Step) ≤ GetValueIncreasePercent c rounded ∧
      GetValueIncreasePercent c rounded ≤ c.Max ∧
      GetValueDecreasePercent c rounded ≤ max c.Min (c.Value - max 1 c.Step) ∧
      c.Min ≤ GetValueDecreasePercent c rounded) ∧
    (∀ r : Int, 55 ≤ GetValueIncreasePercent sampleControl r ∧
      GetValueIncreasePercent sampleControl r ≤ 100) := by
  obtain ⟨_, _, hv, hs⟩ := hwt
  unfold isInt32 at hv hs
  have h1 : (1 : Int) ≤ max 1 c.Step := le_max_left _ _
  have e5 : wrap32 (c.Value + max 1 c.Step) = c.Value + max 1 c.Step :=
    wrap32_of_isInt32 (by unfold isInt32; omega)
  have e6 : wrap32 (c.Value - max 1 c.Step) = c.Value - max 1 c.Step :=
    wrap32_of_isInt32 (by unfold isInt32; omega)
  constructor
  · simp only [GetValueIncreasePercent, GetValueDecreasePercent, hnb, hnm, GetPercentChange,
      e5, e6]
    norm_num
    omega
  · intro r
    have e : wrap32 ((50 : Int) + max 1 5) = 55 := by decide
    simp only [GetValueIncreasePercent, sampleControl, intControl, IsBoolean, IsMenu,
      GetPercentChange, c_int, c_bool, c_menu, e]
    norm_num

/-- Witness of C6: the control of the worked example with the rounded value 52. -/
theorem C6_percent_moves_a_step_witness :
    min sampleControl.Max (sampleControl.Value + max 1 sampleControl.Step)
        ≤ GetValueIncreasePercent sampleControl 52 ∧
      GetValueIncreasePercent sampleControl 52 ≤ sampleControl.Max ∧
      GetValueDecreasePercent sampleControl 52
        ≤ max sampleControl.Min (sampleControl.Value - max 1 sampleControl.Step) ∧
      sampleControl.Min ≤ GetValueDecreasePercent sampleControl 52 :=
  (C6_percent_moves_a_step sampleControl 52 (by decide) (by decide) (by decide) (by decide)
    (by decide) (by decide) (by decide) (by decide)).1

/-- C7 (the claim as stated fails): on the boolean control with range 0 to 1,
whose value is inside its range, the key "5" makes the handler write 5, above
the maximum. -/
theorem C7_counterexample :
    switchControl.Min ≤ switchControl.Value ∧ switchControl.Value ≤ switchControl.Max ∧
      digitWrite id switchControl (DigitKey.digit 5) = 5 ∧
      ¬ (digitWrite id switchControl (DigitKey.digit 5) ≤ switchControl.Max) := by
  decide

/-- C7 (amended): for every control with `Min ≤ Value ≤ Max`, every digit key
and every rounding of the `float64` operations, the value the handler writes
lies in `[Min, Max]` when the control is an integer control, and is the number
of the key (0 for the backtick, 10 for "0", the digit otherwise), whatever the
range, when the control is a menu or a boolean control. -/
theorem C7_digit_write (fl : Rat → Rat) (c : Control) (key : DigitKey)
    (hlo : c.Min ≤ c.Value) (hhi : c.Value ≤ c.Max) :
    if (IsMenu c || IsBoolean c) = true then
      digitWrite fl c key = keyNumber key ∧ 0 ≤ keyNumber key ∧ keyNumber key ≤ 10
    else c.Min ≤ digitWrite fl c key ∧ digitWrite fl c key ≤ c.Max := by
  have hk := keyNumber_range key
  split
  · rename_i h
    refine ⟨?_, hk⟩
    simp only [digitWrite, h, if_true]
    exact wrap32_of_isInt32 (by unfold isInt32; omega)
  · rename_i h
    simp only [digitWrite, h]
    unfold controlValue
    have hmm : (c.Min : Rat) ≤ (c.Max : Rat) := by exact_mod_cast le_trans hlo hhi
    apply truncToInt32_mem
    · exact le_min hmm (le_max_left _ _)
    · exact min_le_left _ _

/-- Witness of C7 (amended): the control of the worked example, the key "5"
and exact arithmetic. -/
theorem C7_digit_write_witness :
    if (IsMenu sampleControl || IsBoolean sampleControl) = true then
      digitWrite id sampleControl (DigitKey.digit 5) = keyNumber (DigitKey.digit 5) ∧
        0 ≤ keyNumber (DigitKey.digit 5) ∧ keyNumber (DigitKey.digit 5) ≤ 10
    else sampleControl.Min ≤ digitWrite id sampleControl (DigitKey.digit 5) ∧
      digitWrite id sampleControl (DigitKey.digit 5) ≤ sampleControl.Max :=
  C7_digit_write id sampleControl (DigitKey.digit 5) (by decide) (by decide)

/-- C8 (evaluation of the code at the failing input): the integer control with
range 0 to 100, value 100 and step 2147483647 is well typed, neither boolean
nor menu, has a step of at least zero and a value inside its range; over the
integers `min(Max, Value + max(1, Step))` is 100, and `GetValueIncreaseStep`,
whose `int32` sum wraps before the clamp, returns -2147483549.  The decrease
is `max(Min, Value - max(1, Step))`, 0, as the claim says. -/
theorem C8_increase_step_wraps :
    hugeStepControl.wellTyped ∧ IsBoolean hugeStepControl = false ∧
      IsMenu hugeStepControl = false ∧ 0 ≤ hugeStepControl.Step ∧
      hugeStepControl.Min ≤ hugeStepControl.Value ∧
      hugeStepControl.Value ≤ hugeStepControl.Max ∧
      min hugeStepControl.Max (hugeStepControl.Value + max 1 hugeStepControl.Step) = 100 ∧
      GetValueIncreaseStep hugeStepControl = -2147483549 ∧
      GetValueDecreseStep hugeStepControl
        = max hugeStepControl.Min (hugeStepControl.Value - max 1 hugeStepControl.Step) := by
  decide

/-- Where `Value + max(1, Step)` stays in the `int32` range, the step increase
of an integer control is `min(Max, Value + max(1, Step))`. -/
lemma increase_step_eq (c : Control) (hwt : c.wellTyped)
    (hnb : IsBoolean c = false) (hnm : IsMenu c = false)
    (hup : c.Value + max 1 c.Step ≤ 2147483647) :
    GetValueIncreaseStep c = min c.Max (c.Value + max 1 c.Step) := by
  obtain ⟨_, _, hv, hs⟩ := hwt
  unfold isInt32 at hv hs
  have h1 : (1 : Int) ≤ max 1 c.Step := le_max_left _ _
  have hs' : max 1 c.Step ≤ 2147483647 := max_le (by norm_num) hs.2
  have e3 : wrap32 (1 * max 1 c.Step) = max 1 c.Step := by
    rw [one_mul]; exact wrap32_of_isInt32 (by unfold isInt32; omega)
  have e5 : wrap32 (c.Value + max 1 c.Step) = c.Value + max 1 c.Step :=
    wrap32_of_isInt32 (by unfold isInt32; omega)
  simp only [GetValueIncreaseStep, hnb, hnm, GetStepsChange, e3, e5]
  norm_num
  exact min_comm _ _

/-- Where `Value - max(1, Step)` stays in the `int32` range, the step decrease
of an integer control is `max(Min, Value - max(1, Step))`. -/
lemma decrease_step_eq (c : Control) (hwt : c.wellTyped)
    (hnb : IsBoolean c = false) (hnm : IsMenu c = false)
    (hdown : -2147483648 ≤ c.Value - max 1 c.Step) :
    GetValueDecreseStep c = max c.Min (c.Value - max 1 c.Step) := by
  obtain ⟨_, _, hv, hs⟩ := hwt
  unfold isInt32 at hv hs
  have h1 : (1 : Int) ≤ max 1 c.Step := le_max_left _ _
  have hs' : max 1 c.Step ≤ 2147483647 := max_le (by norm_num) hs.2
  have e4 : wrap32 (-1 * max 1 c.Step) = -max 1 c.Step := by
    rw [neg_one_mul]; exact wrap32_of_isInt32 (by unfold isInt32; omega)
  have e7 : wrap32 (c.Value + -max 1 c.Step) = c.Value - max 1 c.Step := by
    rw [← sub_eq_add_neg]; exact wrap32_of_isInt32 (by unfold isInt32; omega)
  simp only [GetValueDecreseStep, hnb, hnm, GetStepsChange, e4, e7]
  norm_num
  exact max_comm _ _

/-! ## The inner loop: one pass over a group -/

section Pass

variable {σ : Type} (setControl : σ → ControlID → Int → Bool × σ) (pm : PresetMap)

lemma passStep_todo_sublist (st : PassState σ) (v : Control) :
    (passStep setControl pm st v).todo.Sublist st.todo := by
  unfold passStep
  dsimp only
  split
  · split
    · exact List.erase_sublist _ _
    · exact List.Sublist.refl _
  · exact List.Sublist.refl _

lemma passStep_count (st : PassState σ) (v : Control) (hnd : st.todo.Nodup)
    (t : List ControlID) (ht : t.Sublist (passStep setControl pm st v).todo) :
    st.retries + t.count v.ID ≤ (passStep setControl pm st v).retries := by
  have hndt : t.Nodup := (ht.trans (passStep_todo_sublist setControl pm st v)).nodup hnd
  have hc : t.count v.ID ≤ 1 := List.nodup_iff_count_le_one.mp hndt v.ID
  unfold passStep at ht ⊢
  dsimp only at ht ⊢
  split
  · split
    · rename_i h1 h2
      simp only [h1, h2, if_true] at ht
      have : v.ID ∉ t := fun hm => (List.Nodup.mem_erase_iff hnd).mp (ht.subset hm) |>.1 rfl
      simp [List.count_eq_zero_of_not_mem this]
    · simp only
      omega
  · rename_i h1
    simp only [h1, if_false] at ht
    have : v.ID ∉ t := fun hm => h1 (ht.subset hm)
    simp [List.count_eq_zero_of_not_mem this]

lemma passStep_writes (st : PassState σ) (v : Control) :
    ∃ ws : List Write, (passStep setControl pm st v).writes = st.writes ++ ws ∧
      (ws.map Write.control).Sublist [v] := by
  unfold passStep
  dsimp only
  split
  · split
    · exact ⟨_, rfl, by simp⟩
    · exact ⟨_, rfl, by simp⟩
  · exact ⟨[], by simp, by simp⟩

lemma runPass_cons (v : Control) (cs : List Control) (st : PassState σ) :
    runPass setControl pm (v :: cs) st
      = runPass setControl pm cs (passStep setControl pm st v) := rfl

lemma runPass_todo_sublist (cs : List Control) (st : PassState σ) :
    (runPass setControl pm cs st).todo.Sublist st.todo := by
  induction cs generalizing st with
  | nil => exact List.Sublist.refl _
  | cons v cs ih =>
    rw [runPass_cons]
    exact (ih _).trans (passStep_todo_sublist setControl pm st v)

lemma filter_or_length_le (a : ControlID) (ids t : List ControlID) :
    (t.filter (fun i => decide (i ∈ a :: ids))).length
      ≤ (t.filter (fun i => decide (i ∈ ids))).length + t.count a := by
  induction t with
  | nil => simp
  | cons x t ih =>
    simp only [List.mem_cons, Bool.decide_or] at ih
    by_cases hx : x = a
    · subst hx
      by_cases hm : x ∈ ids
      · simp [List.filter_cons, hm]; omega
      · simp [List.filter_cons, hm]; omega
    · have hx' : ¬ (a = x) := fun h => hx h.symm
      by_cases hm : x ∈ ids
      · simp [List.filter_cons, hm, hx, hx', List.count_cons]; omega
      · simp [List.filter_cons, hm, hx, hx', List.count_cons]; omega

lemma runPass_retries (cs : List Control) (st : PassState σ) (hnd : st.todo.Nodup) :
    st.retries
      + ((runPass setControl pm cs st).todo.filter
          (fun i => decide (i ∈ cs.map Control.ID))).length
      ≤ (runPass setControl pm cs st).retries := by
  induction cs generalizing st with
  | nil => simp [runPass]
  | cons v cs ih =>
    rw [runPass_cons]
    have hnd1 : (passStep setControl pm st v).todo.Nodup :=
      (passStep_todo_sublist setControl pm st v).nodup hnd
    have h1 := ih (passStep setControl pm st v) hnd1
    have h2 := passStep_count setControl pm st v hnd _
      (runPass_todo_sublist setControl pm cs (passStep setControl pm st v))
    have h3 := filter_or_length_le v.ID (cs.map Control.ID)
      (runPass setControl pm cs (passStep setControl pm st v)).todo
    simp only [List.map_cons]
    omega

lemma runPass_writes (cs : List Control) (st : PassState σ) :
    ∃ ws : List Write, (runPass setControl pm cs st).writes = st.writes ++ ws ∧
      (ws.map Write.control).Sublist cs := by
  induction cs generalizing st with
  | nil => exact ⟨[], by simp [runPass], by simp⟩
  | cons v cs ih =>
    rw [runPass_cons]
    obtain ⟨w1, e1, s1⟩ := passStep_writes setControl pm st v
    obtain ⟨w2, e2, s2⟩ := ih (passStep setControl pm st v)
    refine ⟨w1 ++ w2, by rw [e2, e1, List.append_assoc], ?_⟩
    rw [List.map_append]
    exact List.Sublist.append s1 s2

end Pass

/-! ## The retry loop of a group -/

section Loop

variable {σ : Type} (setControl : σ → ControlID → Int → Bool × σ) (pm : PresetMap)

lemma foldl_insert_nodup (cs : List Control) (acc : List ControlID) (h : acc.Nodup) :
    (cs.foldl (fun todo c => todo.insert c.ID) acc).Nodup := by
  induction cs generalizing acc with
  | nil => exact h
  | cons c cs ih => exact ih _ (h.insert)

lemma foldl_insert_mem (cs : List Control) (acc : List ControlID) (i : ControlID) :
    i ∈ cs.foldl (fun todo c => todo.insert c.ID) acc ↔ i ∈ acc ∨ i ∈ cs.map Control.ID := by
  induction cs generalizing acc with
  | nil => simp
  | cons c cs ih =>
    simp only [List.foldl_cons, List.map_cons, List.mem_cons]
    rw [ih, List.mem_insert_iff]
    tauto

lemma foldl_insert_length (cs : List Control) (acc : List ControlID)
    (hnd : (cs.map Control.ID).Nodup) (hdis : ∀ c ∈ cs, c.ID ∉ acc) :
    (cs.foldl (fun todo c => todo.insert c.ID) acc).length = acc.length + cs.length := by
  induction cs generalizing acc with
  | nil => simp
  | cons c cs ih =>
    simp only [List.map_cons, List.nodup_cons] at hnd
    simp only [List.foldl_cons, List.length_cons]
    have hc : c.ID ∉ acc := hdis c (List.mem_cons_self _ _)
    rw [ih _ hnd.2, List.insert_of_not_mem hc, List.length_cons]
    · omega
    · intro d hd hmem
      rw [List.insert_of_not_mem hc, List.mem_cons] at hmem
      rcases hmem with hmem | hmem
      · exact hnd.1 (hmem ▸ List.mem_map_of_mem Control.ID hd)
      · exact hdis d (List.mem_cons_of_mem _ hd) hmem

lemma LoopInv_groupStart (dev : σ) (controls : List Control) :
    LoopInv controls 0 (groupStart dev controls) := by
  refine ⟨foldl_insert_nodup controls [] List.nodup_nil, ?_, by simp, rfl, by simp [groupStart]⟩
  intro i hi
  have := (foldl_insert_mem controls [] i).mp hi
  simpa using this

lemma LoopInv_onePass (controls : List Control) (k : Nat) (st : GroupState σ)
    (h : LoopInv controls k st) :
    LoopInv controls (k + 1) (onePass setControl pm controls st) := by
  obtain ⟨hnd, hsub, hret, hlen, hp⟩ := h
  have hs := runPass_todo_sublist setControl pm controls
    { dev := st.dev, todo := st.todo, retries := st.retries, writes := [] }
  have hr := runPass_retries setControl pm controls
    { dev := st.dev, todo := st.todo, retries := st.retries, writes := [] } hnd
  obtain ⟨ws, hw, hws⟩ := runPass_writes setControl pm controls
    { dev := st.dev, todo := st.todo, retries := st.retries, writes := [] }
  simp only [List.nil_append] at hw
  simp only at hs hr
  refine ⟨hs.nodup hnd, fun i hi => hsub i (hs.subset hi), ?_, ?_, ?_⟩
  · have hf : ((runPass setControl pm controls
          { dev := st.dev, todo := st.todo, retries := st.retries, writes := [] }).todo.filter
          (fun i => decide (i ∈ controls.map Control.ID)))
        = (runPass setControl pm controls
          { dev := st.dev, todo := st.todo, retries := st.retries, writes := [] }).todo := by
      apply List.filter_eq_self.mpr
      intro i hi
      exact decide_eq_true (hsub i (hs.subset hi))
    rw [hf] at hr
    have hl := hs.length_le
    have hm : k * (runPass setControl pm controls
        { dev := st.dev, todo := st.todo, retries := st.retries, writes := [] }).todo.length
        ≤ k * st.todo.length := Nat.mul_le_mul_left k hl
    show (k + 1) * (runPass setControl pm controls
        { dev := st.dev, todo := st.todo, retries := st.retries, writes := [] }).todo.length
      ≤ (runPass setControl pm controls
        { dev := st.dev, todo := st.todo, retries := st.retries, writes := [] }).retries
    rw [Nat.add_mul, Nat.one_mul]
    omega
  · show (st.passes ++ [_]).length = k + 1
    rw [List.length_append, hlen]
    rfl
  · intro q hq
    have hq' : q ∈ st.passes ++ [(runPass setControl pm controls
        { dev := st.dev, todo := st.todo, retries := st.retries, writes := [] }).writes] := hq
    rw [List.mem_append, List.mem_singleton] at hq'
    rcases hq' with hq' | hq'
    · exact hp q hq'
    · rw [hq', hw]; exact hws

lemma loopCond_iff (st : GroupState σ) :
    loopCond st = true ↔ 0 < st.todo.length ∧ st.retries < st.todo.length * 10 := by
  simp [loopCond]

lemma LoopInv_lt_ten (controls : List Control) (k : Nat) (st : GroupState σ)
    (h : LoopInv controls k st) (hc : loopCond st = true) : k < 10 := by
  obtain ⟨_, _, hret, _, _⟩ := h
  obtain ⟨_, h2⟩ := (loopCond_iff st).mp hc
  by_contra hk
  have hk' : 10 ≤ k := Nat.le_of_not_lt hk
  have : 10 * st.todo.length ≤ k * st.todo.length := Nat.mul_le_mul_right _ hk'
  omega

lemma afterPasses_succ (controls : List Control) (k : Nat) (st : GroupState σ) :
    afterPasses setControl pm controls (k + 1) st
      = afterPasses setControl pm controls k (onePass setControl pm controls st) := rfl

lemma exists_stop (controls : List Control) (m : Nat) :
    ∀ (k : Nat) (st : GroupState σ), LoopInv controls k st → k + m = 10 →
      ∃ j, k + j ≤ 10 ∧
        (∀ i, i < j → loopCond (afterPasses setControl pm controls i st) = true) ∧
        loopCond (afterPasses setControl pm controls j st) = false ∧
        LoopInv controls (k + j) (afterPasses setControl pm controls j st) := by
  induction m with
  | zero =>
    intro k st h hk
    refine ⟨0, by omega, fun i hi => absurd hi (Nat.not_lt_zero i), ?_, h⟩
    by_contra hc
    have hc' : loopCond st = true := by simpa using hc
    have := LoopInv_lt_ten controls k st h hc'
    omega
  | succ m ih =>
    intro k st h hk
    by_cases hc : loopCond st = true
    · obtain ⟨j, hj, hall, hstop, hinv⟩ :=
        ih (k + 1) (onePass setControl pm controls st)
          (LoopInv_onePass setControl pm controls k st h) (by omega)
      refine ⟨j + 1, by omega, ?_, hstop, ?_⟩
      · intro i hi
        cases i with
        | zero => exact hc
        | succ i => exact hall i (by omega)
      · have e : k + (j + 1) = k + 1 + j := by omega
        rw [e]
        exact hinv
    · refine ⟨0, by omega, fun i hi => absurd hi (Nat.not_lt_zero i), ?_, h⟩
      simpa using hc

lemma retryLoop_eq_afterPasses (controls : List Control) (j : Nat) :
    ∀ (st : GroupState σ) (fuel : Nat), j < fuel →
      (∀ i, i < j → loopCond (afterPasses setControl pm controls i st) = true) →
      loopCond (afterPasses setControl pm controls j st) = false →
      retryLoop setControl pm controls fuel st
        = some (afterPasses setControl pm controls j st) := by
  induction j with
  | zero =>
    intro st fuel hf _ hstop
    cases fuel with
    | zero => omega
    | succ fuel =>
      have hstop' : loopCond st = false := hstop
      simp [retryLoop, hstop', afterPasses]
  | succ j ih =>
    intro st fuel hf hall hstop
    cases fuel with
    | zero => omega
    | succ fuel =>
      have h0 : loopCond st = true := hall 0 (by omega)
      simp only [retryLoop, h0, if_true]
      exact ih _ fuel (by omega) (fun i hi => hall (i + 1) (by omega)) hstop

lemma flatten_length_le (ps : List (List Write)) (n : Nat) (h : ∀ p ∈ ps, p.length ≤ n) :
    ps.flatten.length ≤ ps.length * n := by
  induction ps with
  | nil => simp
  | cons p ps ih =>
    have h1 := h p (List.mem_cons_self _ _)
    have h2 := ih (fun q hq => h q (List.mem_cons_of_mem _ hq))
    simp only [List.flatten_cons, List.length_append, List.length_cons, Nat.add_mul, Nat.one_mul]
    omega

end Loop

/-! ## The retry loop: termination and the retry budget -/

section Claims

variable {σ : Type} (setControl : σ → ControlID → Int → Bool × σ) (pm : PresetMap)

lemma processGroup_spec (dev : σ) (controls : List Control) (n : Nat) :
    ∃ k, k ≤ 10 ∧
      processGroup setControl pm (11 + n) dev controls
        = some (afterPasses setControl pm controls k (groupStart dev controls)) ∧
      (∀ i, i < k →
        loopCond (afterPasses setControl pm controls i (groupStart dev controls)) = true) ∧
      loopCond (afterPasses setControl pm controls k (groupStart dev controls)) = false ∧
      LoopInv controls k (afterPasses setControl pm controls k (groupStart dev controls)) := by
  obtain ⟨j, hj, hall, hstop, hinv⟩ :=
    exists_stop setControl pm controls 10 0 (groupStart dev controls)
      (LoopInv_groupStart dev controls) (by omega)
  rw [Nat.zero_add] at hinv hj
  exact ⟨j, hj,
    retryLoop_eq_afterPasses setControl pm controls j _ (11 + n) (by omega) hall hstop,
    hall, hstop, hinv⟩

lemma append_order {α : Type} (P Q : α → Prop) (A B : List α) (hA : ∀ e ∈ A, ¬ Q e)
    (hB : ∀ e ∈ B, ¬ P e) (i j : Nat) (ei ej : α)
    (hi : (A ++ B)[i]? = some ei) (hj : (A ++ B)[j]? = some ej)
    (hpi : P ei) (hpj : Q ej) : i < j := by
  have h1 : i < A.length := by
    by_contra h
    rw [List.getElem?_append_right (Nat.le_of_not_lt h)] at hi
    exact hB ei (List.getElem?_mem hi) hpi
  have h2 : A.length ≤ j := by
    by_contra h
    rw [List.getElem?_append_left (Nat.lt_of_not_le h)] at hj
    exact hA ej (List.getElem?_mem hj) hpj
  omega

lemma passStep_log (st : PassState (σ × List LogEntry)) (v : Control) :
    ∃ ws : List Write,
      (passStep (loggingDevice setControl) pm st v).writes = st.writes ++ ws ∧
      (passStep (loggingDevice setControl) pm st v).dev.2 = st.dev.2 ++ ws.map Write.entry := by
  unfold passStep
  dsimp only
  split
  · split
    · rename_i h
      refine ⟨[_], rfl, ?_⟩
      have h' : (setControl st.dev.1 v.ID (pm.get v.ID).Value).1 = true := h
      simp [loggingDevice, Write.entry, h']
    · rename_i h
      refine ⟨[_], rfl, ?_⟩
      have h' : ¬ (setControl st.dev.1 v.ID (pm.get v.ID).Value).1 = true := h
      simp [loggingDevice, Write.entry, h']
  · exact ⟨[], by simp, by simp⟩

lemma runPass_log (cs : List Control) (st : PassState (σ × List LogEntry)) :
    ∃ ws : List Write,
      (runPass (loggingDevice setControl) pm cs st).writes = st.writes ++ ws ∧
      (runPass (loggingDevice setControl) pm cs st).dev.2 = st.dev.2 ++ ws.map Write.entry := by
  induction cs generalizing st with
  | nil => exact ⟨[], by simp [runPass], by simp [runPass]⟩
  | cons v cs ih =>
    rw [runPass_cons]
    obtain ⟨w1, e1, d1⟩ := passStep_log setControl pm st v
    obtain ⟨w2, e2, d2⟩ := ih (passStep (loggingDevice setControl) pm st v)
    refine ⟨w1 ++ w2, by rw [e2, e1, List.append_assoc], ?_⟩
    rw [d2, d1, List.map_append, List.append_assoc]

lemma afterPasses_log (cs : List Control) (k : Nat) :
    ∀ st : GroupState (σ × List LogEntry), ∃ ps : List (List Write),
      (afterPasses (loggingDevice setControl) pm cs k st).passes = st.passes ++ ps ∧
      (afterPasses (loggingDevice setControl) pm cs k st).dev.2
        = st.dev.2 ++ ps.flatten.map Write.entry := by
  induction k with
  | zero => intro st; exact ⟨[], by simp [afterPasses], by simp [afterPasses]⟩
  | succ k ih =>
    intro st
    obtain ⟨ws, e1, d1⟩ := runPass_log setControl pm cs
      { dev := st.dev, todo := st.todo, retries := st.retries, writes := [] }
    simp only [List.nil_append] at e1
    have hp : (onePass (loggingDevice setControl) pm cs st).passes = st.passes ++ [ws] := by
      show st.passes ++ [_] = _
      rw [e1]
    have hd : (onePass (loggingDevice setControl) pm cs st).dev.2
        = st.dev.2 ++ ws.map Write.entry := d1
    obtain ⟨ps, e2, d2⟩ := ih (onePass (loggingDevice setControl) pm cs st)
    rw [afterPasses_succ]
    refine ⟨ws :: ps, ?_, ?_⟩
    · rw [e2, hp, List.append_assoc]; rfl
    · rw [d2, hd, List.flatten_cons, List.map_append, List.append_assoc]

lemma processGroup_log (dev : σ × List LogEntry) (controls : List Control) (n : Nat) :
    ∃ g, processGroup (loggingDevice setControl) pm (11 + n) dev controls = some g ∧
      g.dev.2 = dev.2 ++ g.passes.flatten.map Write.entry ∧
      ∀ p ∈ g.passes, (p.map Write.control).Sublist controls := by
  obtain ⟨k, _, hrun, _, _, hinv⟩ :=
    processGroup_spec (loggingDevice setControl) pm dev controls n
  obtain ⟨ps, e, d⟩ := afterPasses_log setControl pm controls k (groupStart dev controls)
  have hp : (groupStart dev controls).passes = [] := rfl
  have hd : (groupStart dev controls).dev = dev := rfl
  rw [hp, List.nil_append] at e
  rw [hd, ← e] at d
  exact ⟨_, hrun, d, hinv.2.2.2.2⟩

lemma entry_of_pass (controls : List Control) (ps : List (List Write))
    (hps : ∀ p ∈ ps, (p.map Write.control).Sublist controls) (e : LogEntry)
    (he : e ∈ ps.flatten.map Write.entry) : ∃ c ∈ controls, c.ID = e.1 := by
  obtain ⟨w, hw, rfl⟩ := List.mem_map.mp he
  obtain ⟨p, hp, hwp⟩ := List.mem_flatten.mp hw
  exact ⟨w.control, (hps p hp).subset (List.mem_map_of_mem Write.control hwp), rfl⟩

/-- C3: for every device (its write outcomes may depend on all earlier
writes), every preset map and every group of controls, the retry loop of the
group returns once it may evaluate its condition 11 times or more, having made
at most 10 passes and at most `10 * N` calls of `SetControl`, `N` the number of
controls of the group. -/
theorem C3_retry_loop_terminates (dev : σ) (controls : List Control) (n : Nat) :
    ∃ g, processGroup setControl pm (11 + n) dev controls = some g ∧
      g.passes.length ≤ 10 ∧ g.trace.length ≤ 10 * controls.length := by
  obtain ⟨k, hk, hrun, _, _, hinv⟩ := processGroup_spec setControl pm dev controls n
  obtain ⟨_, _, _, hlen, hp⟩ := hinv
  refine ⟨_, hrun, by omega, ?_⟩
  have h1 := flatten_length_le
    (afterPasses setControl pm controls k (groupStart dev controls)).passes controls.length
    (fun p hp' => by
      have := (hp p hp').length_le
      rwa [List.length_map] at this)
  have h2 : k * controls.length ≤ 10 * controls.length := Nat.mul_le_mul_right _ hk
  unfold GroupState.trace
  rw [hlen] at h1
  omega

/-- C10 (amended): for every device, preset map and group, the retry loop makes
exactly `k` passes, for a `k ≤ 10`, where before each of the `k` passes the
pending set is not empty and the failed writes counted so far are fewer than 10
times the size of the pending set at that moment, and after the last pass this
is no longer so. -/
theorem C10_budget_is_current_size (dev : σ) (controls : List Control) (n : Nat) :
    ∃ k, k ≤ 10 ∧
      processGroup setControl pm (11 + n) dev controls
        = some (afterPasses setControl pm controls k (groupStart dev controls)) ∧
      (∀ i, i < k →
        0 < (afterPasses setControl pm controls i (groupStart dev controls)).todo.length ∧
        (afterPasses setControl pm controls i (groupStart dev controls)).retries
          < (afterPasses setControl pm controls i (groupStart dev controls)).todo.length * 10) ∧
      ¬ (0 < (afterPasses setControl pm controls k (groupStart dev controls)).todo.length ∧
        (afterPasses setControl pm controls k (groupStart dev controls)).retries
          < (afterPasses setControl pm controls k (groupStart dev controls)).todo.length * 10) := by
  obtain ⟨k, hk, hrun, hall, hstop, _⟩ := processGroup_spec setControl pm dev controls n
  refine ⟨k, hk, hrun, fun i hi => (loopCond_iff _).mp (hall i hi), ?_⟩
  intro h
  have := (loopCond_iff _).mpr h
  rw [hstop] at this
  exact Bool.noConfusion this

/-- C9: for every device, every live control list with pairwise different
identifiers and every preset, `applyPreset` returns; in the sequence of the
calls of `SetControl` as they reach the device, every write to a control of
kind boolean or menu comes before every write to a control of another kind;
that sequence is the passes of the boolean and menu group followed by the
passes of the other group, and the controls written in one pass are in the
relative order of the live list. -/
theorem C9_groups_in_order (dev : σ) (allControls : List Control) (preset : ConfigPreset)
    (n : Nat) (hnd : (allControls.map Control.ID).Nodup) :
    ∃ r, applyPreset (loggingDevice setControl) (11 + n) (dev, []) allControls preset = some r ∧
      (∀ (i j : Nat) (ei ej : LogEntry), r.dev.2[i]? = some ei → r.dev.2[j]? = some ej →
        (∃ c ∈ allControls, c.ID = ei.1 ∧ isBoolOrMenu c = true) →
        (∃ c ∈ allControls, c.ID = ej.1 ∧ isBoolOrMenu c = false) → i < j) ∧
      r.dev.2 = ((r.groupA.passes ++ r.groupB.passes).flatten).map Write.entry ∧
      (∀ p ∈ r.groupA.passes ++ r.groupB.passes,
        (p.map Write.control).Sublist allControls) := by
  obtain ⟨ga, hrunA, hlogA, hpA⟩ :=
    processGroup_log setControl (presetValuesMap preset) (dev, [])
      (boolAndMenuControls allControls) n
  obtain ⟨gb, hrunB, hlogB, hpB⟩ :=
    processGroup_log setControl (presetValuesMap preset) ga.dev (integerControls allControls) n
  have happ : applyPreset (loggingDevice setControl) (11 + n) (dev, []) allControls preset
      = some { dev := gb.dev, groupA := ga, groupB := gb } := by
    simp only [applyPreset, hrunA, hrunB]
  simp only [List.nil_append] at hlogA
  have hlog : gb.dev.2
      = ga.passes.flatten.map Write.entry ++ gb.passes.flatten.map Write.entry := by
    rw [hlogB, hlogA]
  have hinj := List.inj_on_of_nodup_map hnd
  refine ⟨_, happ, ?_, ?_, ?_⟩
  · intro i j ei ej hi hj hpi hpj
    have hi' : (ga.passes.flatten.map Write.entry ++ gb.passes.flatten.map Write.entry)[i]?
        = some ei := by rw [← hlog]; exact hi
    have hj' : (ga.passes.flatten.map Write.entry ++ gb.passes.flatten.map Write.entry)[j]?
        = some ej := by rw [← hlog]; exact hj
    refine append_order
      (fun e : LogEntry => ∃ c ∈ allControls, c.ID = e.1 ∧ isBoolOrMenu c = true)
      (fun e : LogEntry => ∃ c ∈ allControls, c.ID = e.1 ∧ isBoolOrMenu c = false)
      _ _ ?_ ?_ i j ei ej hi' hj' hpi hpj
    · rintro e he ⟨c, hc, hce, hck⟩
      obtain ⟨d, hd, hde⟩ := entry_of_pass (boolAndMenuControls allControls) ga.passes hpA e he
      have hd' := List.mem_filter.mp hd
      have : c = d := hinj hc hd'.1 (hce.trans hde.symm)
      rw [this, hd'.2] at hck
      exact Bool.noConfusion hck
    · rintro e he ⟨c, hc, hce, hck⟩
      obtain ⟨d, hd, hde⟩ := entry_of_pass (integerControls allControls) gb.passes hpB e he
      have hd' := List.mem_filter.mp hd
      have : c = d := hinj hc hd'.1 (hce.trans hde.symm)
      rw [this] at hck
      have hf := hd'.2
      rw [hck] at hf
      exact Bool.noConfusion hf
  · show gb.dev.2 = _
    rw [hlog, List.flatten_append, List.map_append]
  · intro p hp
    rcases List.mem_append.mp hp with h | h
    · exact (hpA p h).trans (List.filter_sublist _)
    · exact (hpB p h).trans (List.filter_sublist _)

/-- Witness of C9: a live list in which the boolean control 3 stands between
the integer controls 1 and 2, on a device that accepts every write; the device
receives the write to control 3 first. -/
theorem C9_groups_in_order_witness :
    (applyPreset (loggingDevice (lockedDevice [])) 11 ((), []) mixedControls mixedPreset).map
        (fun r => r.dev.2) = some [(3, 0, true), (1, 60, true), (2, 80, true)] ∧
    ∃ r, applyPreset (loggingDevice (lockedDevice [])) (11 + 0) ((), []) mixedControls
        mixedPreset = some r ∧
      (∀ (i j : Nat) (ei ej : LogEntry), r.dev.2[i]? = some ei → r.dev.2[j]? = some ej →
        (∃ c ∈ mixedControls, c.ID = ei.1 ∧ isBoolOrMenu c = true) →
        (∃ c ∈ mixedControls, c.ID = ej.1 ∧ isBoolOrMenu c = false) → i < j) ∧
      r.dev.2 = ((r.groupA.passes ++ r.groupB.passes).flatten).map Write.entry ∧
      (∀ p ∈ r.groupA.passes ++ r.groupB.passes,
        (p.map Write.control).Sublist mixedControls) :=
  ⟨by decide, C9_groups_in_order (lockedDevice []) () mixedControls mixedPreset 0 (by decide)⟩

/-- C10 (the claim as stated fails): on the group of the controls 1 and 2,
where the writes to control 2 fail and those to control 1 succeed, the pending
set has 2 keys at the start; after the tenth pass it is `[2]` and 10 failed
writes are counted, fewer than 10 times the initial size, so the claim has a
further pass start, and the loop returns in that state. -/
theorem C10_counterexample :
    processGroup (lockedDevice [2]) (presetValuesMap fullPreset) 11 () twoControls
        = some (afterPasses (lockedDevice [2]) (presetValuesMap fullPreset) twoControls 10
            (groupStart () twoControls)) ∧
      (groupStart () twoControls).todo.length = 2 ∧
      (afterPasses (lockedDevice [2]) (presetValuesMap fullPreset) twoControls 10
        (groupStart () twoControls)).todo = [2] ∧
      (afterPasses (lockedDevice [2]) (presetValuesMap fullPreset) twoControls 10
        (groupStart () twoControls)).retries = 10 ∧
      initialBudgetCond 2 (afterPasses (lockedDevice [2]) (presetValuesMap fullPreset)
        twoControls 10 (groupStart () twoControls)) = true ∧
      loopCond (afterPasses (lockedDevice [2]) (presetValuesMap fullPreset) twoControls 10
        (groupStart () twoControls)) = false := by
  refine ⟨?_, by decide, by decide, by decide, by decide, by decide⟩
  exact retryLoop_eq_afterPasses (lockedDevice [2]) (presetValuesMap fullPreset) twoControls 10
    (groupStart () twoControls) 11 (by decide) (by decide) (by decide)

/-! ## A group on which every write fails -/

lemma runPass_allfail (hfail : ∀ s id v, (setControl s id v).1 = false)
    (cs : List Control) (st : PassState σ) (hmem : ∀ c ∈ cs, c.ID ∈ st.todo) :
    (runPass setControl pm cs st).todo = st.todo ∧
      (runPass setControl pm cs st).retries = st.retries + cs.length ∧
      (runPass setControl pm cs st).writes = st.writes ++ cs.map (failedWrite pm) := by
  induction cs generalizing st with
  | nil => simp [runPass]
  | cons v cs ih =>
    have hv : v.ID ∈ st.todo := hmem v (List.mem_cons_self _ _)
    have hs : passStep setControl pm st v
        = { dev := (setControl st.dev v.ID (pm.get v.ID).Value).2, todo := st.todo,
            retries := st.retries + 1, writes := st.writes ++ [failedWrite pm v] } := by
      simp [passStep, hv, hfail, failedWrite]
    rw [runPass_cons, hs]
    obtain ⟨h1, h2, h3⟩ := ih
      { dev := (setControl st.dev v.ID (pm.get v.ID).Value).2, todo := st.todo,
        retries := st.retries + 1, writes := st.writes ++ [failedWrite pm v] }
      (fun c hc => hmem c (List.mem_cons_of_mem _ hc))
    refine ⟨h1, ?_, ?_⟩
    · rw [h2, List.length_cons]; simp only; omega
    · rw [h3]; simp

lemma afterPasses_allfail (hfail : ∀ s id v, (setControl s id v).1 = false)
    (controls : List Control) (k : Nat) :
    ∀ st : GroupState σ, (∀ c ∈ controls, c.ID ∈ st.todo) →
      (afterPasses setControl pm controls k st).todo = st.todo ∧
      (afterPasses setControl pm controls k st).retries = st.retries + k * controls.length ∧
      (afterPasses setControl pm controls k st).passes
        = st.passes ++ List.replicate k (controls.map (failedWrite pm)) := by
  induction k with
  | zero => intro st _; simp [afterPasses]
  | succ k ih =>
    intro st hmem
    obtain ⟨h1, h2, h3⟩ := runPass_allfail setControl pm hfail controls
      { dev := st.dev, todo := st.todo, retries := st.retries, writes := [] } hmem
    simp only [List.nil_append] at h1 h2 h3
    have e1 : (onePass setControl pm controls st).todo = st.todo := h1
    have e2 : (onePass setControl pm controls st).retries = st.retries + controls.length := h2
    have e3 : (onePass setControl pm controls st).passes
        = st.passes ++ [controls.map (failedWrite pm)] := by
      show st.passes ++ [_] = _
      rw [h3]
    obtain ⟨i1, i2, i3⟩ := ih (onePass setControl pm controls st) (by rw [e1]; exact hmem)
    rw [afterPasses_succ]
    refine ⟨i1.trans e1, ?_, ?_⟩
    · rw [i2, e2, Nat.add_mul, Nat.one_mul]; omega
    · rw [i3, e3, List.replicate_succ, List.append_assoc]; rfl

lemma flatten_replicate_length (k : Nat) (m : List Write) :
    (List.replicate k m).flatten.length = k * m.length := by
  induction k with
  | zero => simp
  | succ k ih =>
    rw [List.replicate_succ, List.flatten_cons, List.length_append, ih, Nat.add_mul,
      Nat.one_mul, Nat.add_comm]

/-- C4: for every group of `N ≥ 1` controls with pairwise different
identifiers, all present in the preset, on a device on which every write fails,
the retry loop of the group returns after 10 passes, each pass attempts every
control of the group once and in order, every attempt fails, the attempts are
`10 * N` in all, and all `N` identifiers are in the pending set at the end. -/
theorem C4_all_writes_fail (hfail : ∀ s id v, (setControl s id v).1 = false)
    (dev : σ) (controls : List Control) (preset : ConfigPreset) (n : Nat)
    (hN : 1 ≤ controls.length) (hnd : (controls.map Control.ID).Nodup)
    (_hin : ∀ c ∈ controls, inPreset preset c.ID) :
    ∃ g, processGroup setControl (presetValuesMap preset) (11 + n) dev controls = some g ∧
      g.passes.length = 10 ∧
      (∀ p ∈ g.passes, p.map Write.control = controls ∧ ∀ w ∈ p, w.ok = false) ∧
      g.trace.length = 10 * controls.length ∧
      g.todo.length = controls.length ∧ ∀ c ∈ controls, c.ID ∈ g.todo := by
  have hlen : (groupStart dev controls).todo.length = controls.length := by
    have := foldl_insert_length controls [] hnd (fun c _ h => List.not_mem_nil _ h)
    simpa [groupStart, initTodo] using this
  have hmem : ∀ c ∈ controls, c.ID ∈ (groupStart dev controls).todo := by
    intro c hc
    exact (foldl_insert_mem controls [] c.ID).mpr (Or.inr (List.mem_map_of_mem Control.ID hc))
  have hall := fun k => afterPasses_allfail setControl (presetValuesMap preset) hfail controls k
    (groupStart dev controls) hmem
  have hrun := retryLoop_eq_afterPasses setControl (presetValuesMap preset) controls 10
    (groupStart dev controls) (11 + n) (by omega)
    (by
      intro i hi
      obtain ⟨h1, h2, _⟩ := hall i
      rw [loopCond_iff, h1, h2, hlen]
      have hr : (groupStart dev controls).retries = 0 := rfl
      have : (i + 1) * controls.length ≤ 10 * controls.length :=
        Nat.mul_le_mul_right _ (by omega)
      rw [Nat.add_mul, Nat.one_mul] at this
      omega)
    (by
      obtain ⟨h1, h2, _⟩ := hall 10
      have hr : (groupStart dev controls).retries = 0 := rfl
      have hc : ¬ (loopCond (afterPasses setControl (presetValuesMap preset) controls 10
          (groupStart dev controls)) = true) := by
        rw [loopCond_iff, h1, h2, hlen]
        omega
      simpa using hc)
  obtain ⟨h1, _, h3⟩ := hall 10
  have hp : (groupStart dev controls).passes = [] := rfl
  rw [hp, List.nil_append] at h3
  refine ⟨_, hrun, ?_, ?_, ?_, ?_, ?_⟩
  · rw [h3, List.length_replicate]
  · intro p hpm
    rw [h3] at hpm
    have hpe := (List.mem_replicate.mp hpm).2
    subst hpe
    constructor
    · rw [List.map_map]
      have : (Write.control ∘ failedWrite (presetValuesMap preset)) = id := rfl
      rw [this, List.map_id]
    · intro w hw
      obtain ⟨c, _, hcw⟩ := List.mem_map.mp hw
      rw [← hcw]
      rfl
  · unfold GroupState.trace
    rw [h3, flatten_replicate_length, List.length_map]
  · rw [h1, hlen]
  · intro c hc
    rw [h1]
    exact hmem c hc

/-- Witness of C4: the two integer controls 1 and 2, both in the preset, on
the device on which every write fails. -/
theorem C4_all_writes_fail_witness :
    ∃ g, processGroup failingDevice (presetValuesMap fullPreset) (11 + 0) () twoControls
        = some g ∧
      g.passes.length = 10 ∧
      (∀ p ∈ g.passes, p.map Write.control = twoControls ∧ ∀ w ∈ p, w.ok = false) ∧
      g.trace.length = 10 * twoControls.length ∧
      g.todo.length = twoControls.length ∧ ∀ c ∈ twoControls, c.ID ∈ g.todo :=
  C4_all_writes_fail failingDevice (fun _ _ _ => rfl) () twoControls fullPreset 0
    (by decide) (by decide) (by decide)

/-! ## Controls without an entry in the preset -/

/-- C2 (evaluation of the code at the failing input): the live controls 1 (at
50) and 2 (at 70) and a preset with an entry for control 2 only, on a device
that is a map and accepts every write.  Control 1 has no entry in the preset;
`applyPreset` writes 0 to it and then 80 to control 2, and control 1 stands at
0 afterwards. -/
theorem C2_writes_control_outside_preset :
    ¬ inPreset partialPreset 1 ∧
      (applyPreset mapDevice 11 twoValues twoControls partialPreset).map
          (fun r => r.trace.map (fun w => (w.control.ID, w.value, w.ok)))
        = some [(1, 0, true), (2, 80, true)] ∧
      twoValues 1 = 50 ∧
      (applyPreset mapDevice 11 twoValues twoControls partialPreset).map (fun r => r.dev 1)
        = some 0 := by
  decide

end Claims

end Webcam
